import Mathlib

/-
Verification of the draggable/slider logic of the vitepress-docs repository.

The embedding covers:
  * src/composables/useDraggable.ts : the drag engine (onMouseDown, onMouseMove,
    onMouseUp), its Position record and its per-session state;
  * the Slider component (src/unnamed/part_001) : valueAsPercentage, the watch on
    position.value.x that derives and emits the model value, and handleTrackClick.

JavaScript numbers are modelled by the rationals; Math.round is modelled by its
documented semantics (round half toward positive infinity); DOM rectangles are
records of rationals; the DOM tree around an event target is modelled by the
list of ids of the target element and its ancestors, nearest first, and CSS
selector semantics by an abstract predicate on element ids.
-/

namespace VitepressDocs

/-- JavaScript Math.round: rounds to the nearest integer, halves toward
positive infinity. -/
def jsRound (q : ℚ) : ℤ := ⌊q + 1 / 2⌋

/-- JavaScript Math.min on two numbers. -/
def jsMin (a b : ℚ) : ℚ := if a ≤ b then a else b

/-- JavaScript Math.max on two numbers. -/
def jsMax (a b : ℚ) : ℚ := if a ≤ b then b else a

/-- A DOMRect as used by the code: left, top, width, height. -/
structure Rect where
  left : ℚ
  top : ℚ
  width : ℚ
  height : ℚ
deriving DecidableEq, Repr

/-- The Position type of useDraggable.ts: coordinates in percent. -/
structure Position where
  x : ℚ
  y : ℚ
deriving DecidableEq, Repr

/-- A pointer coordinate pair (event.clientX, event.clientY). -/
structure Point where
  clientX : ℚ
  clientY : ℚ
deriving DecidableEq, Repr

/-- A pointer event: a mouse event carries one point, a touch event a list of
touch points. Each carries the chain of ids of the event origin element and
its ancestors, nearest first, used by the ignore check. -/
inductive PointerEvent where
  | mouse (p : Point) (chain : List Nat)
  | touch (touches : List Point) (chain : List Nat)
deriving Repr

/-- The expression `"touches" in _event ? _event.touches[0] : _event`,
returning none when a touch event has no active touch point. -/
def eventPoint : PointerEvent → Option Point
  | PointerEvent.mouse p _ => some p
  | PointerEvent.touch ts _ => ts.head?

/-- The id chain of the event origin element (`_event.target`) and its
ancestors, nearest first. -/
def targetChain : PointerEvent → List Nat
  | PointerEvent.mouse _ c => c
  | PointerEvent.touch _ c => c

/-- The ignore parameter of useDraggable: a CSS selector (its semantics
abstracted as a predicate on element ids) or an element ref whose value may
be null. -/
inductive IgnoreCfg where
  | selector (matchesId : Nat → Bool)
  | elemRef (refValue : Option Nat)

/-- The ignore check of onMouseDown: for a selector, `target.closest(ignore)`
is truthy exactly when some element of the target's ancestor chain (itself
included) matches; for an element ref, `ignore.value.contains(target)` is
true exactly when the referenced element occurs in the chain. A null ref or
no configured ignore never hits. -/
def ignoreHit : Option IgnoreCfg → List Nat → Bool
  | none, _ => false
  | some (IgnoreCfg.selector m), chain => chain.any m
  | some (IgnoreCfg.elemRef (some i)), chain => chain.contains i
  | some (IgnoreCfg.elemRef none), _ => false

/-- The drag target element as seen by onMouseDown: its bounding rect and its
parent element's bounding rect (none when parentElement is null). -/
structure DragElem where
  rect : Rect
  parentRect : Option Rect
deriving DecidableEq, Repr

/-- The mutable state of a useDraggable instance: the reactive position and
isDragging refs, the rects captured at drag start, the click offset inside
the element, and whether the document-level move/up listeners are
registered. -/
structure DragState where
  position : Position
  isDragging : Bool
  parentRect : Option Rect
  elementRect : Option Rect
  relativeClickOffset : Position
  listeners : Bool
deriving DecidableEq, Repr

/-- The onMouseDown handler of useDraggable.ts. Returns the handler's state
unchanged on each early return (missing element, missing parent, ignore hit,
touch event without a touch point); otherwise captures the rects, computes
the relative click offset (adjusted by half the element size when centered),
sets isDragging and registers the document-level listeners. -/
def onMouseDown (centered : Bool) (ignore : Option IgnoreCfg)
    (ev : PointerEvent) (element : Option DragElem) (s : DragState) : DragState :=
  match element with
  | none => s
  | some el =>
    match el.parentRect with
    | none => s
    | some parentRect =>
      if ignoreHit ignore (targetChain ev) then s
      else
        match eventPoint ev with
        | none => s
        | some event =>
          { position := s.position
            isDragging := true
            parentRect := some parentRect
            elementRect := some el.rect
            relativeClickOffset :=
              { x := event.clientX - el.rect.left -
                  (if centered then el.rect.width / 2 else 0)
                y := event.clientY - el.rect.top -
                  (if centered then el.rect.height / 2 else 0) }
            listeners := true }

/-- The position computed by one onMouseMove step from the captured rects,
the stored click offset and the current pointer point: offset subtraction,
clamping between the centering-adjusted minimum and maximum, and conversion
to percent of either the full parent size or, in offset mode, the parent
width minus the element width (0 when that offset width is not positive). -/
def movePosition (centered useOffset : Bool) (parentRect elementRect : Rect)
    (relativeClickOffset : Position) (event : Point) : Position :=
  let offsetX := relativeClickOffset.x
  let offsetY := relativeClickOffset.y
  let newX := event.clientX - parentRect.left - offsetX
  let newY := event.clientY - parentRect.top - offsetY
  let offsetWidth := parentRect.width - elementRect.width
  let maxX := parentRect.width -
    (if centered then elementRect.width / 2 else elementRect.width)
  let maxY := parentRect.height -
    (if centered then elementRect.height / 2 else elementRect.height)
  let minX := if centered then elementRect.width / 2 else 0
  let minY := if centered then elementRect.height / 2 else 0
  let clampedX := jsMax minX (jsMin maxX newX)
  let clampedY := jsMax minY (jsMin maxY newY)
  let percentX :=
    if useOffset then
      (if 0 < offsetWidth then clampedX / offsetWidth * 100 else 0)
    else clampedX / parentRect.width * 100
  let percentY := clampedY / parentRect.height * 100
  { x := percentX, y := percentY }

/-- The onMouseMove handler of useDraggable.ts: a no-op unless a drag is
active with captured rects and the event carries a point; otherwise stores
the newly computed position. -/
def onMouseMove (centered useOffset : Bool) (ev : PointerEvent)
    (s : DragState) : DragState :=
  if s.isDragging then
    match s.parentRect, s.elementRect with
    | some parentRect, some elementRect =>
      match eventPoint ev with
      | none => s
      | some event =>
        let pos := movePosition centered useOffset parentRect elementRect
          s.relativeClickOffset event
        { s with position := pos }
    | _, _ => s
  else s

/-- The onMouseUp handler of useDraggable.ts: clears isDragging and removes
the document-level listeners. -/
def onMouseUp (s : DragState) : DragState :=
  { s with isDragging := false, listeners := false }

/-- The valueAsPercentage computed of the Slider component. -/
def valueAsPercentage (min max modelValue : ℚ) : ℚ :=
  let range := max - min
  let normalizedValue := modelValue - min
  normalizedValue / range * 100

/-- The percentage-to-value derivation shared verbatim by the Slider's watch
on position.value.x and by handleTrackClick: linear interpolation over
[min, max], rounding to a multiple of step when step is positive, and
clamping to [min, max]. -/
def deriveValue (min max step percentage : ℚ) : ℚ :=
  let range := max - min
  let newValue := percentage / 100 * range + min
  let stepped :=
    if 0 < step then ((jsRound (newValue / step) : ℚ)) * step else newValue
  jsMax min (jsMin max stepped)

/-- The watch on position.value.x of the Slider component: returns the
payload of the emitted update, none when disabled or when the derived value
equals the current model value. -/
def watchPositionX (disabled : Bool) (min max step modelValue
    newPercentageX : ℚ) : Option ℚ :=
  if disabled then none
  else
    let newValue := deriveValue min max step newPercentageX
    if newValue = modelValue then none else some newValue

/-- The effective width of the track in handleTrackClick: track width minus
thumb width. -/
def clickEffectiveWidth (trackRect thumbRect : Rect) : ℚ :=
  trackRect.width - thumbRect.width

/-- The clamped target x of handleTrackClick: the click position relative to
the track, shifted by half the thumb width, clamped to the effective
range. -/
def clickClampedX (trackRect thumbRect : Rect) (clientX : ℚ) : ℚ :=
  let clickX := clientX - trackRect.left
  let targetX := clickX - thumbRect.width / 2
  jsMax 0 (jsMin targetX (clickEffectiveWidth trackRect thumbRect))

/-- The percentage computed by handleTrackClick, 0 when the effective width
is not positive. -/
def clickPercentage (trackRect thumbRect : Rect) (clientX : ℚ) : ℚ :=
  if 0 < clickEffectiveWidth trackRect thumbRect then
    clickClampedX trackRect thumbRect clientX /
      clickEffectiveWidth trackRect thumbRect * 100
  else 0

/-- The observable outcome of one handleTrackClick invocation: the optimistic
write to the engine's position if any, the emitted update payload if any, and
whether the synthetic onMouseDown on the thumb was invoked. -/
structure ClickResult where
  positionSet : Option Position
  emitted : Option ℚ
  dragInitiated : Bool
deriving DecidableEq, Repr

/-- The handleTrackClick handler of the Slider component: a no-op when
disabled, when a ref is missing, or when a touch event has no touch point;
otherwise computes the click percentage, optimistically writes the engine
position, emits the derived value when it differs from the model value, and
after the next tick invokes the engine's onMouseDown on the thumb. -/
def handleTrackClick (disabled : Bool) (trackRect thumbRect : Option Rect)
    (ev : PointerEvent) (min max step modelValue : ℚ) : ClickResult :=
  if disabled then ⟨none, none, false⟩
  else
    match trackRect, thumbRect with
    | some tr, some th =>
      match eventPoint ev with
      | none => ⟨none, none, false⟩
      | some p =>
        let percentage := clickPercentage tr th p.clientX
        let newValue := deriveValue min max step percentage
        ⟨some ⟨percentage, 0⟩,
          if newValue = modelValue then none else some newValue,
          true⟩
    | _, _ => ⟨none, none, false⟩

theorem jsMin_eq_min (a b : ℚ) : jsMin a b = Min.min a b := by
  simp [jsMin, min_def]

theorem jsMax_eq_max (a b : ℚ) : jsMax a b = Max.max a b := by
  simp [jsMax, max_def]

theorem clamp_le_left (lo hi x : ℚ) : lo ≤ jsMax lo (jsMin hi x) := by
  rw [jsMax_eq_max]
  exact le_max_left _ _

theorem clamp_le_right (lo hi x b : ℚ) (h1 : lo ≤ b) (h2 : hi ≤ b) :
    jsMax lo (jsMin hi x) ≤ b := by
  rw [jsMax_eq_max, jsMin_eq_min]
  exact max_le h1 (le_trans (min_le_left _ _) h2)

theorem pct_nonneg (a w : ℚ) (h0 : 0 ≤ a) (hw : 0 ≤ w) : 0 ≤ a / w * 100 := by
  have h := div_nonneg h0 hw
  linarith

theorem pct_le_100 (a w : ℚ) (hw : 0 < w) (h1 : a ≤ w) : a / w * 100 ≤ 100 := by
  have h := (div_le_one hw).mpr h1
  linarith

/-- C10: when disabled is true, a press on the track is a complete no-op:
handleTrackClick writes no position, emits no value and never invokes the
synthetic drag-initiation handler. -/
theorem handleTrackClick_disabled_noop (trackRect thumbRect : Option Rect)
    (ev : PointerEvent) (min max step modelValue : ℚ) :
    handleTrackClick true trackRect thumbRect ev min max step modelValue =
      ⟨none, none, false⟩ := rfl

/-- C7: a pointer-down whose origin element matches or is contained by the
configured ignore selector or element aborts drag initiation: the state is
returned unchanged, so isDragging stays as it was, the position is unchanged
and no document-level listeners are registered. -/
theorem onMouseDown_ignore_aborts (centered : Bool) (ignore : Option IgnoreCfg)
    (ev : PointerEvent) (element : Option DragElem) (s : DragState)
    (h : ignoreHit ignore (targetChain ev) = true) :
    onMouseDown centered ignore ev element s = s := by
  cases element with
  | none => rfl
  | some el =>
    cases hel : el.parentRect with
    | none => simp [onMouseDown, hel]
    | some pr => simp [onMouseDown, hel, h]

theorem onMouseDown_ignore_aborts_witness :
    ignoreHit (some (IgnoreCfg.selector (fun i => i == 3)))
        (targetChain (PointerEvent.mouse ⟨5, 5⟩ [3, 7])) = true ∧
      onMouseDown false (some (IgnoreCfg.selector (fun i => i == 3)))
        (PointerEvent.mouse ⟨5, 5⟩ [3, 7])
        (some ⟨⟨0, 0, 10, 10⟩, some ⟨0, 0, 100, 100⟩⟩)
        ⟨⟨0, 0⟩, false, none, none, ⟨0, 0⟩, false⟩ =
        ⟨⟨0, 0⟩, false, none, none, ⟨0, 0⟩, false⟩ :=
  ⟨rfl, onMouseDown_ignore_aborts _ _ _ _ _ rfl⟩

/-- C8: onMouseDown with a null drag target, a target without a parent
element, or a touch event carrying no active touch point is a silent no-op:
the state is returned unchanged, so isDragging stays as it was, the position
is unchanged and no document-level listeners are registered. -/
theorem onMouseDown_invalid_noop (centered : Bool) (ignore : Option IgnoreCfg)
    (ev : PointerEvent) (element : Option DragElem) (s : DragState)
    (h : element = none ∨ (∃ el, element = some el ∧ el.parentRect = none) ∨
      eventPoint ev = none) :
    onMouseDown centered ignore ev element s = s := by
  rcases h with h | ⟨el, hel, hp⟩ | h
  · subst h; rfl
  · subst hel
    simp [onMouseDown, hp]
  · cases element with
    | none => rfl
    | some el =>
      cases hel : el.parentRect with
      | none => simp [onMouseDown, hel]
      | some pr =>
        by_cases hig : ignoreHit ignore (targetChain ev) = true
        · simp [onMouseDown, hel, hig]
        · simp [onMouseDown, hel, hig, h]

theorem onMouseDown_invalid_noop_witness :
    eventPoint (PointerEvent.touch [] [4]) = none ∧
      onMouseDown false none (PointerEvent.touch [] [4])
        (some ⟨⟨0, 0, 10, 10⟩, some ⟨0, 0, 100, 100⟩⟩)
        ⟨⟨1, 2⟩, false, none, none, ⟨0, 0⟩, false⟩ =
        ⟨⟨1, 2⟩, false, none, none, ⟨0, 0⟩, false⟩ :=
  ⟨rfl, onMouseDown_invalid_noop _ _ _ _ _ (Or.inr (Or.inr rfl))⟩

/-- C9: in offset mode, when the captured parent width does not exceed the
element width, a processed pointer-move sets position.x to exactly 0 rather
than dividing by the non-positive offset width. -/
theorem onMouseMove_useOffset_nonpos_zero (centered : Bool) (ev : PointerEvent)
    (s : DragState) (pr er : Rect) (p : Point)
    (hd : s.isDragging = true) (hpr : s.parentRect = some pr)
    (her : s.elementRect = some er) (hev : eventPoint ev = some p)
    (hw : pr.width - er.width ≤ 0) :
    (onMouseMove centered true ev s).position.x = 0 := by
  simp only [onMouseMove, hd, hpr, her, hev, if_true]
  simp only [movePosition, if_true]
  rw [if_neg (not_lt.mpr hw)]

theorem onMouseMove_useOffset_nonpos_zero_witness :
    ((30 : ℚ) - 40 ≤ 0) ∧
      (onMouseMove false true (PointerEvent.mouse ⟨100, 100⟩ [])
        ⟨⟨0, 0⟩, true, some ⟨0, 0, 30, 30⟩, some ⟨0, 0, 40, 40⟩, ⟨0, 0⟩,
          true⟩).position.x = 0 :=
  ⟨by norm_num,
    onMouseMove_useOffset_nonpos_zero false _ _ ⟨0, 0, 30, 30⟩ ⟨0, 0, 40, 40⟩
      ⟨100, 100⟩ rfl rfl rfl rfl (by norm_num)⟩

/-- C4: with min 0, max 100 and step 10, the drag-derived value at raw
percentage 44 is 40 and at raw percentage 46 is 50. -/
theorem deriveValue_step10_at_44_46 :
    deriveValue 0 100 10 44 = 40 ∧ deriveValue 0 100 10 46 = 50 := by
  constructor <;> norm_num [deriveValue, jsMin, jsMax, jsRound]

/-- C5: click-to-jump on a 200px track with a 20px thumb at click x 100 under
min 0, max 100, step 1 computes effective width 180, clamped target x 90,
percentage 50, and emits the value 50 (when 50 differs from the current model
value), optimistically writing position 50 and initiating the synthetic
drag. -/
theorem handleTrackClick_scenario (modelValue : ℚ) (h : modelValue ≠ 50) :
    clickEffectiveWidth ⟨0, 0, 200, 24⟩ ⟨90, 0, 20, 20⟩ = 180 ∧
      clickClampedX ⟨0, 0, 200, 24⟩ ⟨90, 0, 20, 20⟩ 100 = 90 ∧
      clickPercentage ⟨0, 0, 200, 24⟩ ⟨90, 0, 20, 20⟩ 100 = 50 ∧
      handleTrackClick false (some ⟨0, 0, 200, 24⟩) (some ⟨90, 0, 20, 20⟩)
        (PointerEvent.mouse ⟨100, 0⟩ []) 0 100 1 modelValue =
        ⟨some ⟨50, 0⟩, some 50, true⟩ := by
  have hew : clickEffectiveWidth ⟨0, 0, 200, 24⟩ ⟨90, 0, 20, 20⟩ = 180 := by
    norm_num [clickEffectiveWidth]
  have hcx : clickClampedX ⟨0, 0, 200, 24⟩ ⟨90, 0, 20, 20⟩ 100 = 90 := by
    norm_num [clickClampedX, clickEffectiveWidth, jsMin, jsMax]
  have hpc : clickPercentage ⟨0, 0, 200, 24⟩ ⟨90, 0, 20, 20⟩ 100 = 50 := by
    rw [clickPercentage, if_pos (by rw [hew]; norm_num), hcx, hew]
    norm_num
  refine ⟨hew, hcx, hpc, ?_⟩
  have hdv : deriveValue 0 100 1 50 = 50 := by
    norm_num [deriveValue, jsMin, jsMax, jsRound]
  simp only [handleTrackClick, eventPoint, Bool.false_eq_true, if_false, hpc,
    hdv]
  rw [if_neg (fun hx => h hx.symm)]

theorem handleTrackClick_scenario_witness :
    ((0 : ℚ) ≠ 50) ∧
      (clickEffectiveWidth ⟨0, 0, 200, 24⟩ ⟨90, 0, 20, 20⟩ = 180 ∧
        clickClampedX ⟨0, 0, 200, 24⟩ ⟨90, 0, 20, 20⟩ 100 = 90 ∧
        clickPercentage ⟨0, 0, 200, 24⟩ ⟨90, 0, 20, 20⟩ 100 = 50 ∧
        handleTrackClick false (some ⟨0, 0, 200, 24⟩) (some ⟨90, 0, 20, 20⟩)
          (PointerEvent.mouse ⟨100, 0⟩ []) 0 100 1 0 =
          ⟨some ⟨50, 0⟩, some 50, true⟩) :=
  ⟨by norm_num, handleTrackClick_scenario 0 (by norm_num)⟩

/-- C6: when disabled is true, a processed pointer-move still updates the
engine's internal position (the engine takes no disabled flag), while the
slider's watch on position.x never emits a value-change notification. -/
theorem slider_disabled_updates_position_never_emits
    (min max step modelValue pct : ℚ) (ev : PointerEvent) (s : DragState)
    (pr er : Rect) (p : Point)
    (hd : s.isDragging = true) (hpr : s.parentRect = some pr)
    (her : s.elementRect = some er) (hev : eventPoint ev = some p) :
    (onMouseMove false true ev s).position =
        movePosition false true pr er s.relativeClickOffset p ∧
      watchPositionX true min max step modelValue pct = none := by
  constructor
  · simp [onMouseMove, hd, hpr, her, hev]
  · rfl

theorem slider_disabled_updates_position_never_emits_witness :
    ((⟨⟨0, 0⟩, true, some ⟨0, 0, 100, 20⟩, some ⟨0, 0, 20, 20⟩, ⟨0, 0⟩, true⟩ :
        DragState).isDragging = true) ∧
      ((onMouseMove false true (PointerEvent.mouse ⟨40, 10⟩ [])
          ⟨⟨0, 0⟩, true, some ⟨0, 0, 100, 20⟩, some ⟨0, 0, 20, 20⟩, ⟨0, 0⟩,
            true⟩).position =
          movePosition false true ⟨0, 0, 100, 20⟩ ⟨0, 0, 20, 20⟩ ⟨0, 0⟩
            ⟨40, 10⟩ ∧
        watchPositionX true 0 100 1 50 40 = none) :=
  ⟨rfl,
    slider_disabled_updates_position_never_emits 0 100 1 50 40
      (PointerEvent.mouse ⟨40, 10⟩ [])
      ⟨⟨0, 0⟩, true, some ⟨0, 0, 100, 20⟩, some ⟨0, 0, 20, 20⟩, ⟨0, 0⟩, true⟩
      ⟨0, 0, 100, 20⟩ ⟨0, 0, 20, 20⟩ ⟨40, 10⟩ rfl rfl rfl rfl⟩

theorem deriveValue_mem (min max step pct : ℚ) (hmm : min ≤ max) :
    min ≤ deriveValue min max step pct ∧ deriveValue min max step pct ≤ max := by
  simp only [deriveValue]
  exact ⟨clamp_le_left _ _ _, clamp_le_right _ _ _ _ hmm le_rfl⟩

theorem deriveValue_step_shape (min max step pct : ℚ) (hs : 0 < step) :
    (∃ k : ℤ, deriveValue min max step pct = k * step) ∨
      deriveValue min max step pct = min ∨
      deriveValue min max step pct = max := by
  simp only [deriveValue, if_pos hs, jsMax_eq_max, jsMin_eq_min]
  rcases le_total min
      (Min.min max ((jsRound ((pct / 100 * (max - min) + min) / step) : ℚ) *
        step)) with h | h
  · rw [max_eq_right h]
    rcases le_total max
        ((jsRound ((pct / 100 * (max - min) + min) / step) : ℚ) * step) with
      h2 | h2
    · rw [min_eq_left h2]
      right; right; rfl
    · rw [min_eq_right h2]
      exact Or.inl ⟨jsRound ((pct / 100 * (max - min) + min) / step), rfl⟩
  · rw [max_eq_left h]
    right; left; rfl

theorem emitted_is_derived (disabled : Bool) (trackRect thumbRect : Option Rect)
    (ev : PointerEvent) (min max step modelValue pct v : ℚ)
    (h : watchPositionX disabled min max step modelValue pct = some v ∨
      (handleTrackClick disabled trackRect thumbRect ev min max step
        modelValue).emitted = some v) :
    ∃ q : ℚ, v = deriveValue min max step q := by
  rcases h with h | h
  · cases disabled with
    | true => exact absurd h (by simp [watchPositionX])
    | false =>
      refine ⟨pct, ?_⟩
      by_cases he : deriveValue min max step pct = modelValue
      · simp [watchPositionX, he] at h
      · simp [watchPositionX, he] at h
        exact h.symm
  · cases disabled with
    | true => exact absurd h (by simp [handleTrackClick])
    | false =>
      cases trackRect with
      | none => exact absurd h (by simp [handleTrackClick])
      | some tr =>
        cases thumbRect with
        | none => exact absurd h (by simp [handleTrackClick])
        | some th =>
          cases hev : eventPoint ev with
          | none => simp [handleTrackClick, hev] at h
          | some p =>
            refine ⟨clickPercentage tr th p.clientX, ?_⟩
            by_cases he : deriveValue min max step
                (clickPercentage tr th p.clientX) = modelValue
            · simp [handleTrackClick, hev, he] at h
            · simp [handleTrackClick, hev, he] at h
              exact h.symm

/-- C2 amended: every value the slider emits (via the drag watch or
click-to-jump) lies within [min, max]; when step is positive the value is an
integer multiple of step, or one of the clamp endpoints min and max. It need
not be a multiple of step measured from min. -/
theorem slider_emitted_in_range (disabled : Bool)
    (trackRect thumbRect : Option Rect) (ev : PointerEvent)
    (min max step modelValue pct v : ℚ) (hmm : min ≤ max)
    (h : watchPositionX disabled min max step modelValue pct = some v ∨
      (handleTrackClick disabled trackRect thumbRect ev min max step
        modelValue).emitted = some v) :
    (min ≤ v ∧ v ≤ max) ∧
      (0 < step → (∃ k : ℤ, v = k * step) ∨ v = min ∨ v = max) := by
  obtain ⟨q, hq⟩ :=
    emitted_is_derived disabled trackRect thumbRect ev min max step modelValue
      pct v h
  subst hq
  exact ⟨deriveValue_mem min max step q hmm,
    fun hs => deriveValue_step_shape min max step q hs⟩

theorem slider_emitted_in_range_witness :
    ((1 : ℚ) ≤ 10 ∧ watchPositionX false 1 10 2 0 30 = some 4) ∧
      (((1 : ℚ) ≤ 4 ∧ (4 : ℚ) ≤ 10) ∧
        ((0 : ℚ) < 2 →
          (∃ k : ℤ, (4 : ℚ) = k * 2) ∨ (4 : ℚ) = 1 ∨ (4 : ℚ) = 10)) :=
  ⟨⟨by norm_num,
      by norm_num [watchPositionX, deriveValue, jsMin, jsMax, jsRound]⟩,
    slider_emitted_in_range false none none (PointerEvent.mouse ⟨0, 0⟩ [])
      1 10 2 0 30 4 (by norm_num)
      (Or.inl
        (by norm_num [watchPositionX, deriveValue, jsMin, jsMax, jsRound]))⟩

/-- C2 counterexample: with min 1, max 10, step 2 the drag watch emits the
value 4 at percentage 30, and 4 - 1 = 3 is not an integer multiple of the
step 2, refuting the claim that every emitted value is a multiple of step
measured from min. -/
theorem slider_emitted_not_step_from_min :
    watchPositionX false 1 10 2 0 30 = some 4 ∧
      ¬ ∃ k : ℤ, (4 : ℚ) - 1 = k * 2 := by
  constructor
  · norm_num [watchPositionX, deriveValue, jsMin, jsMax, jsRound]
  · rintro ⟨k, hk⟩
    have h1 : ((2 * k : ℤ) : ℚ) = 3 := by push_cast; linarith
    have h2 : (2 * k : ℤ) = 3 := by exact_mod_cast h1
    omega

theorem jsRound_intCast (k : ℤ) : jsRound (k : ℚ) = k := by
  unfold jsRound
  rw [Int.floor_int_add]
  norm_num

/-- C3: round trip: for v within [min, max] that is a multiple of step, the
rendered thumb percentage is (v - min) / (max - min) * 100, and feeding that
exact percentage through the drag-to-value derivation (interpolate, round to
step, clamp) yields v back. -/
theorem slider_round_trip (min max step v : ℚ) (hlt : min < max)
    (hv1 : min ≤ v) (hv2 : v ≤ max)
    (hstep : 0 < step → ∃ k : ℤ, v = k * step) :
    valueAsPercentage min max v = (v - min) / (max - min) * 100 ∧
      deriveValue min max step (valueAsPercentage min max v) = v := by
  have hne : max - min ≠ 0 := sub_ne_zero.mpr (ne_of_gt hlt)
  refine ⟨rfl, ?_⟩
  have hraw : valueAsPercentage min max v / 100 * (max - min) + min = v := by
    simp only [valueAsPercentage]
    field_simp
    ring
  have hclamp : ∀ w : ℚ, w = v → jsMax min (jsMin max w) = v := by
    intro w hw
    subst hw
    rw [jsMin_eq_min, jsMax_eq_max, min_eq_right hv2, max_eq_right hv1]
  simp only [deriveValue, hraw]
  by_cases hs : 0 < step
  · obtain ⟨k, hk⟩ := hstep hs
    rw [if_pos hs]
    refine hclamp _ ?_
    have hdiv : v / step = (k : ℚ) := by
      rw [hk, mul_div_assoc, div_self (ne_of_gt hs), mul_one]
    rw [hdiv, jsRound_intCast, ← hk]
  · rw [if_neg hs]
    exact hclamp v rfl

theorem slider_round_trip_witness :
    ((0 : ℚ) < 100 ∧ (0 : ℚ) ≤ 30 ∧ (30 : ℚ) ≤ 100 ∧
        ((0 : ℚ) < 10 → ∃ k : ℤ, (30 : ℚ) = k * 10)) ∧
      (valueAsPercentage 0 100 30 = (30 - 0) / (100 - 0) * 100 ∧
        deriveValue 0 100 10 (valueAsPercentage 0 100 30) = 30) :=
  ⟨⟨by norm_num, by norm_num, by norm_num, fun _ => ⟨3, by norm_num⟩⟩,
    slider_round_trip 0 100 10 30 (by norm_num) (by norm_num) (by norm_num)
      (fun _ => ⟨3, by norm_num⟩)⟩

theorem movePosition_x_mem (centered useOffset : Bool) (pr er : Rect)
    (off : Position) (p : Point)
    (hconf : ¬(centered = true ∧ useOffset = true))
    (hw : 0 < pr.width) (hew0 : 0 ≤ er.width) (hew : er.width ≤ pr.width) :
    0 ≤ (movePosition centered useOffset pr er off p).x ∧
      (movePosition centered useOffset pr er off p).x ≤ 100 := by
  cases centered with
  | true =>
    cases useOffset with
    | true => exact absurd ⟨rfl, rfl⟩ hconf
    | false =>
      simp only [movePosition, Bool.false_eq_true, eq_self_iff_true, if_true, if_false]
      constructor
      · exact pct_nonneg _ _
          (le_trans (by linarith) (clamp_le_left (er.width / 2) _ _))
          (le_of_lt hw)
      · exact pct_le_100 _ _ hw
          (clamp_le_right _ _ _ _ (by linarith) (by linarith))
  | false =>
    cases useOffset with
    | false =>
      simp only [movePosition, Bool.false_eq_true, eq_self_iff_true, if_true, if_false]
      constructor
      · exact pct_nonneg _ _ (clamp_le_left _ _ _) (le_of_lt hw)
      · exact pct_le_100 _ _ hw
          (clamp_le_right _ _ _ _ (le_of_lt hw) (by linarith))
    | true =>
      simp only [movePosition, Bool.false_eq_true, eq_self_iff_true, if_true, if_false]
      by_cases how : 0 < pr.width - er.width
      · rw [if_pos how]
        constructor
        · exact pct_nonneg _ _ (clamp_le_left _ _ _) (le_of_lt how)
        · exact pct_le_100 _ _ how
            (clamp_le_right _ _ _ _ (le_of_lt how) le_rfl)
      · rw [if_neg how]
        norm_num

theorem movePosition_y_mem (centered useOffset : Bool) (pr er : Rect)
    (off : Position) (p : Point)
    (hh : 0 < pr.height) (heh0 : 0 ≤ er.height)
    (heh : er.height ≤ pr.height) :
    0 ≤ (movePosition centered useOffset pr er off p).y ∧
      (movePosition centered useOffset pr er off p).y ≤ 100 := by
  cases centered with
  | true =>
    simp only [movePosition, Bool.false_eq_true, eq_self_iff_true, if_true, if_false]
    constructor
    · exact pct_nonneg _ _
        (le_trans (by linarith) (clamp_le_left (er.height / 2) _ _))
        (le_of_lt hh)
    · exact pct_le_100 _ _ hh
        (clamp_le_right _ _ _ _ (by linarith) (by linarith))
  | false =>
    simp only [movePosition, Bool.false_eq_true, eq_self_iff_true, if_true, if_false]
    constructor
    · exact pct_nonneg _ _ (clamp_le_left _ _ _) (le_of_lt hh)
    · exact pct_le_100 _ _ hh
        (clamp_le_right _ _ _ _ (le_of_lt hh) (by linarith))

/-- C1 amended: for a processed pointer-move during a drag whose captured
parent has positive width and height and whose element is no larger than the
parent, position.x and position.y land in [0, 100] for every pointer
position, provided centered and useOffset are not both enabled; with both
enabled the bound fails. -/
theorem onMouseMove_position_in_bounds (centered useOffset : Bool)
    (ev : PointerEvent) (s : DragState) (pr er : Rect) (p : Point)
    (hconf : ¬(centered = true ∧ useOffset = true))
    (hd : s.isDragging = true) (hpr : s.parentRect = some pr)
    (her : s.elementRect = some er) (hev : eventPoint ev = some p)
    (hw : 0 < pr.width) (hh : 0 < pr.height)
    (hew0 : 0 ≤ er.width) (heh0 : 0 ≤ er.height)
    (hew : er.width ≤ pr.width) (heh : er.height ≤ pr.height) :
    (0 ≤ (onMouseMove centered useOffset ev s).position.x ∧
        (onMouseMove centered useOffset ev s).position.x ≤ 100) ∧
      0 ≤ (onMouseMove centered useOffset ev s).position.y ∧
        (onMouseMove centered useOffset ev s).position.y ≤ 100 := by
  have hred : (onMouseMove centered useOffset ev s).position =
      movePosition centered useOffset pr er s.relativeClickOffset p := by
    simp [onMouseMove, hd, hpr, her, hev]
  rw [hred]
  exact ⟨movePosition_x_mem centered useOffset pr er s.relativeClickOffset p
      hconf hw hew0 hew,
    movePosition_y_mem centered useOffset pr er s.relativeClickOffset p
      hh heh0 heh⟩

theorem onMouseMove_position_in_bounds_witness :
    (¬((false : Bool) = true ∧ (true : Bool) = true)) ∧
      ((0 ≤ (onMouseMove false true (PointerEvent.mouse ⟨200, 30⟩ [])
            ⟨⟨0, 0⟩, true, some ⟨0, 0, 100, 50⟩, some ⟨0, 0, 20, 20⟩, ⟨0, 0⟩,
              true⟩).position.x ∧
          (onMouseMove false true (PointerEvent.mouse ⟨200, 30⟩ [])
            ⟨⟨0, 0⟩, true, some ⟨0, 0, 100, 50⟩, some ⟨0, 0, 20, 20⟩, ⟨0, 0⟩,
              true⟩).position.x ≤ 100) ∧
        0 ≤ (onMouseMove false true (PointerEvent.mouse ⟨200, 30⟩ [])
            ⟨⟨0, 0⟩, true, some ⟨0, 0, 100, 50⟩, some ⟨0, 0, 20, 20⟩, ⟨0, 0⟩,
              true⟩).position.y ∧
          (onMouseMove false true (PointerEvent.mouse ⟨200, 30⟩ [])
            ⟨⟨0, 0⟩, true, some ⟨0, 0, 100, 50⟩, some ⟨0, 0, 20, 20⟩, ⟨0, 0⟩,
              true⟩).position.y ≤ 100) :=
  ⟨by simp,
    onMouseMove_position_in_bounds false true (PointerEvent.mouse ⟨200, 30⟩ [])
      ⟨⟨0, 0⟩, true, some ⟨0, 0, 100, 50⟩, some ⟨0, 0, 20, 20⟩, ⟨0, 0⟩, true⟩
      ⟨0, 0, 100, 50⟩ ⟨0, 0, 20, 20⟩ ⟨200, 30⟩ (by simp) rfl rfl rfl rfl
      (by norm_num) (by norm_num) (by norm_num) (by norm_num) (by norm_num)
      (by norm_num)⟩

/-- C1 counterexample: with centered and useOffset both enabled, a parent of
width 100, an element of width 20 and the pointer at client x 200 (outside
the parent's bounds), the processed move sets position.x to 112.5, violating
the claimed [0, 100] bound. -/
theorem onMouseMove_position_exceeds_100 :
    (onMouseMove true true (PointerEvent.mouse ⟨200, 50⟩ [])
        ⟨⟨0, 0⟩, true, some ⟨0, 0, 100, 100⟩, some ⟨0, 0, 20, 20⟩, ⟨0, 0⟩,
          true⟩).position.x = 225 / 2 ∧
      ¬((225 / 2 : ℚ) ≤ 100) := by
  constructor
  · norm_num [onMouseMove, movePosition, jsMin, jsMax, eventPoint]
  · norm_num

end VitepressDocs
